import Mathlib

/-!
Shallow embedding of `src/ppo/train_single.py` (the training driver of
pytorch-a2c-ppo-acktr): startup normalization and validation of the
parsed arguments, the per-cycle behaviour of the main training loop
(learning-rate / clip decay, the rollout-batching scheduler gate, the
checkpoint and evaluation conditions), and the evaluation collection loop.

Machine integers of the source are modelled as `Nat` / `Int` (Python ints
are unbounded, so no modular wrap is needed); learning rates and rewards
are modelled as `ℚ`.
-/

namespace TrainSingle

/-- The parsed command-line arguments the driver reads (`args = get_args()`),
restricted to the fields `train_single.py` uses for the claims at hand.
`num_rollouts` is an `Int` since the parsed value may be `0` (triggering
normalization) or negative (left untouched).  `acktr_optimizer_lr` models
`agent.optimizer.lr` for the ACKTR branch: the source's own comment says that
learning rate is hard-coded in `kfac.py` (an external module), so it enters
the model as an unconstrained field rather than as `lr`. -/
structure Args where
  algo : String
  recurrent_policy : Bool
  num_rollouts : Int
  num_processes : Nat
  num_steps : Nat
  num_env_steps : Nat
  seed : Int
  lr : ℚ
  acktr_optimizer_lr : ℚ
  clip_param : ℚ
  use_linear_lr_decay : Bool
  use_linear_clip_decay : Bool
  save_interval : Nat
  save_dir : String
  log_interval : Nat
  eval_interval : Option Nat

/-- The body of the module-level `while args.num_rollouts < 30:
args.num_rollouts += args.num_processes` loop (lines 30-31), written with
explicit fuel so it is structural.  Starting from `nr = 0` with
`p ≥ 1`, the loop performs at most 30 iterations (each adds at least 1),
so fuel 30 makes `rolloutsWhile` agree with the source loop whenever the
source loop terminates (it diverges only for `p = 0`). -/
def rolloutsWhileAux (p : Nat) : Nat → Nat → Nat
  | 0, nr => nr
  | fuel + 1, nr => if nr < 30 then rolloutsWhileAux p fuel (nr + p) else nr

/-- `while args.num_rollouts < 30: args.num_rollouts += args.num_processes`. -/
def rolloutsWhile (p nr : Nat) : Nat := rolloutsWhileAux p 30 nr

/-- The value of `args.num_rollouts` after the module-level normalization
(lines 28-31): if the configured value is `0` it is raised by repeatedly
adding `num_processes` until it reaches 30; any other value is untouched. -/
def effNumRollouts (a : Args) : Int :=
  if a.num_rollouts = 0 then (rolloutsWhile a.num_processes 0 : Int)
  else a.num_rollouts

/-- `assert args.algo in ['a2c', 'ppo', 'acktr']` (line 23). -/
def algoOk (a : Args) : Bool :=
  a.algo == "a2c" || a.algo == "ppo" || a.algo == "acktr"

/-- `if args.recurrent_policy: assert args.algo in ['a2c', 'ppo']`
(lines 24-26). -/
def recurrentOk (a : Args) : Bool :=
  !a.recurrent_policy || (a.algo == "a2c" || a.algo == "ppo")

/-- `if args.num_rollouts > 0: assert args.num_rollouts % args.num_processes
== 0` (lines 32-33); this check runs after the normalization, so it sees the
effective value. -/
def divisibilityOk (a : Args) : Bool :=
  !(0 < effNumRollouts a) || (effNumRollouts a % (a.num_processes : Int) == 0)

/-- All three module-level startup assertions pass (lines 23-33). -/
def startupOk (a : Args) : Bool :=
  algoOk a && recurrentOk a && divisibilityOk a

/-- `num_updates = int(args.num_env_steps) // args.num_steps //
args.num_processes` (line 35). -/
def numUpdates (a : Args) : Nat :=
  a.num_env_steps / a.num_steps / a.num_processes

/-- `deque_len = args.num_rollouts if args.num_rollouts > 0 else
(args.num_processes if args.num_processes > 10 else 10)` (line 121);
`args.num_rollouts` holds the post-normalization value at this point. -/
def dequeLen (a : Args) : Int :=
  if 0 < effNumRollouts a then effNumRollouts a
  else if 10 < (a.num_processes : Int) then (a.num_processes : Int) else 10

/-- The scheduler's sub-window count `args.num_rollouts //
args.num_processes` (line 160), on the effective `num_rollouts`. -/
def cycleLen (a : Args) : Nat :=
  (effNumRollouts a).toNat / a.num_processes

/-- The rollout-batching scheduler gate of line 160:
`args.num_rollouts > 0 and (j % (args.num_rollouts // args.num_processes)
!= 0)` — when true the cycle `continue`s without an update. -/
def gateSkips (a : Args) (j : Nat) : Bool :=
  decide (0 < effNumRollouts a ∧ j % cycleLen a ≠ 0)

/-- `update_linear_schedule(optimizer, j, num_updates, initial_lr)`.
Modelled from the spec: the body lives in `ppo/a2c_ppo_acktr/utils.py`,
which is not part of the source under scrutiny; the spec describes it as
decaying the learning rate "linearly toward 0 as j → num_updates", i.e.
`initial_lr * (1 - j / num_updates)`. -/
def update_linear_schedule (j nUpd : Nat) (initial_lr : ℚ) : ℚ :=
  initial_lr * (1 - (j : ℚ) / (nUpd : ℚ))

/-- The initial learning rate the decay branch passes to
`update_linear_schedule` (lines 129-133): the optimizer's own hard-coded
rate for ACKTR, `args.lr` otherwise. -/
def initialLR (a : Args) : ℚ :=
  if a.algo == "acktr" then a.acktr_optimizer_lr else a.lr

/-- The learning rate installed at the top of cycle `j` (lines 127-133),
`none` when linear decay is disabled. -/
def cycleLR (a : Args) (j : Nat) : Option ℚ :=
  if a.use_linear_lr_decay then
    some (update_linear_schedule j (numUpdates a) (initialLR a))
  else none

/-- The PPO clip parameter installed at the top of cycle `j` (lines
135-136), `none` when not applicable. -/
def cycleClip (a : Args) (j : Nat) : Option ℚ :=
  if a.algo == "ppo" && a.use_linear_clip_decay then
    some (a.clip_param * (1 - (j : ℚ) / (numUpdates a : ℚ)))
  else none

/-- Observable events of one iteration of the `for j in range(num_updates)`
loop: the decayed learning rate / clip value installed at the top, whether
the scheduler gate `continue`d, whether the learning update fired, whether a
checkpoint was written, and whether an evaluation phase ran. -/
structure CycleEvents where
  lrSet : Option ℚ
  clipSet : Option ℚ
  skipped : Bool
  updated : Bool
  saved : Bool
  evaled : Bool

/-- One iteration of the main loop (lines 125-250) in terms of its
observable events.  `numLogged` is the current length of the
`episode_rewards` deque (an environment-dependent quantity, passed in as a
parameter).  Order mirrors the source: decay first (lines 127-136), then
the scheduler gate (lines 160-162), then update / save / eval. -/
def runCycle (a : Args) (j : Nat) (numLogged : Nat) : CycleEvents :=
  let lr := cycleLR a j
  let clip := cycleClip a j
  if gateSkips a j then
    { lrSet := lr, clipSet := clip, skipped := true, updated := false,
      saved := false, evaled := false }
  else
    { lrSet := lr, clipSet := clip, skipped := false, updated := true,
      saved := decide ((j % a.save_interval = 0 ∨ j = numUpdates a - 1)
                        ∧ a.save_dir ≠ ""),
      evaled := match a.eval_interval with
        | none => false
        | some ei => decide (1 < numLogged ∧ j % ei = 0) }

/-- The whole `for j in range(num_updates)` loop as a trace of cycle
events; `numLogged j` is the length of `episode_rewards` when cycle `j`
reaches the eval check. -/
def mainTrace (a : Args) (numLogged : Nat → Nat) : List CycleEvents :=
  (List.range (numUpdates a)).map (fun j => runCycle a j (numLogged j))

/-- The seed handed to `make_vec_envs` for evaluation environments
(line 205): `args.seed + args.num_processes`. -/
def evalSeed (a : Args) : Int := a.seed + (a.num_processes : Int)

/-- The `deterministic` flag passed to `actor_critic.act` in the
evaluation loop (line 223). -/
def evalActDeterministic : Bool := true

/-- Mutable state of the evaluation loop (lines 213-236):
`eval_episode_rewards`, `eval_reward_list_robot1`, `eval_reward_list_robot2`. -/
structure EvalState where
  rewards : List ℚ
  robot1 : List (List ℚ)
  robot2 : List (List ℚ)

/-- `eval_episode_rewards = []` plus the two per-process reward lists
(lines 213, 219-220). -/
def evalInit (a : Args) : EvalState :=
  { rewards := []
    robot1 := List.replicate a.num_processes []
    robot2 := List.replicate a.num_processes [] }

/-- One iteration of the evaluation `while` body (lines 222-236):
`completions` is the list of finished-episode returns the `infos` of this
step carry; `reset_rewards` is assigned `False` (line 230) and the
`if reset_rewards:` branch (lines 234-236) would re-blank the two robot
reward lists. -/
def evalIter (a : Args) (completions : List ℚ) (s : EvalState) : EvalState :=
  let reset_rewards : Bool := false
  let rewards := s.rewards ++ completions
  if reset_rewards then
    { rewards := rewards
      robot1 := List.replicate a.num_processes []
      robot2 := List.replicate a.num_processes [] }
  else
    { s with rewards := rewards }

/-- The evaluation collection loop `while (len(eval_episode_rewards) < 10)`
(line 221), with explicit fuel.  `c n` is the batch of episode returns
completing on the `n`-th step; the stream is shifted as the loop advances. -/
def evalLoop (a : Args) : Nat → (Nat → List ℚ) → EvalState → EvalState
  | 0, _, s => s
  | fuel + 1, c, s =>
    if s.rewards.length < 10 then
      evalLoop a fuel (fun t => c (t + 1)) (evalIter a (c 0) s)
    else s

/-- The episode returns accumulated over the first `n` evaluation steps. -/
def streamAccum (c : Nat → List ℚ) (n : Nat) : List ℚ :=
  (List.range n).flatMap c

/-- Line 116: when `args.num_rollouts > 0`, slot 0 of the rollout storage
is filled with `torch.cat([obs for _ in range(args.num_rollouts //
args.num_processes)] + [obs[:(args.num_rollouts % args.num_processes)]],
dim=0)` — the reset batch tiled, plus a trailing modulo slice. -/
def initObsRow (obs : List α) (nr p : Nat) : List α :=
  (List.replicate (nr / p) obs).flatten ++ obs.take (nr % p)

/-- The slice of a storage row the driver feeds to `actor_critic.act` on
cycle `j` (lines 144-146): `rollouts.obs[step, :args.num_processes]` — the
source's slice expression does not mention `j` or the sub-window index at
all, which the unused argument records. -/
def collectionReadSlice (a : Args) (row : List α) (_j : Nat) : List α :=
  row.take a.num_processes

/-! ## Concrete configurations used as test inputs -/

/-- A baseline configuration: `ppo` with `num_rollouts = 90`,
`num_processes = 30` (the spec's own worked example), `num_steps = 8` and
`num_env_steps = 1200`, so `num_updates = 5`. -/
def baseArgs : Args :=
  { algo := "ppo"
    recurrent_policy := false
    num_rollouts := 90
    num_processes := 30
    num_steps := 8
    num_env_steps := 1200
    seed := 1
    lr := 7 / 10000
    acktr_optimizer_lr := 1 / 4
    clip_param := 1 / 5
    use_linear_lr_decay := false
    use_linear_clip_decay := false
    save_interval := 100
    save_dir := "trained_models"
    log_interval := 10
    eval_interval := none }

/-- `baseArgs` with `num_rollouts` configured `0` and 4 worker processes. -/
def cfgZeroRollouts : Args :=
  { baseArgs with num_rollouts := 0, num_processes := 4 }

/-! ## Properties of the startup normalization loop -/

/-- If the fuel covers the remaining distance to 30, the loop result is
at least 30 (so fuel 30 is enough from `nr = 0` when `p ≥ 1`). -/
lemma rolloutsWhileAux_ge (p : Nat) :
    ∀ fuel nr, 30 ≤ nr + fuel * p → 30 ≤ rolloutsWhileAux p fuel nr := by
  intro fuel
  induction fuel with
  | zero => intro nr h; simpa [rolloutsWhileAux] using h
  | succ f ih =>
    intro nr h
    rw [rolloutsWhileAux]
    split
    · apply ih
      rw [Nat.succ_mul] at h
      omega
    · omega

/-- The loop only ever adds `p`, so it preserves divisibility by `p`. -/
lemma rolloutsWhileAux_dvd (p : Nat) :
    ∀ fuel nr, p ∣ nr → p ∣ rolloutsWhileAux p fuel nr := by
  intro fuel
  induction fuel with
  | zero => intro nr h; simpa [rolloutsWhileAux] using h
  | succ f ih =>
    intro nr h
    rw [rolloutsWhileAux]
    split
    · exact ih _ (Dvd.dvd.add h dvd_rfl)
    · exact h

/-- The loop stops as soon as it reaches 30, so it overshoots by less
than one increment. -/
lemma rolloutsWhileAux_lt (p : Nat) :
    ∀ fuel nr, nr < 30 + p → rolloutsWhileAux p fuel nr < 30 + p := by
  intro fuel
  induction fuel with
  | zero => intro nr h; simpa [rolloutsWhileAux] using h
  | succ f ih =>
    intro nr h
    rw [rolloutsWhileAux]
    split
    · next hlt => exact ih _ (by omega)
    · exact h

/-- Combined characterisation of the normalization loop started at 0. -/
lemma rolloutsWhile_spec (p : Nat) (hp : 1 ≤ p) :
    30 ≤ rolloutsWhile p 0 ∧ p ∣ rolloutsWhile p 0 ∧ rolloutsWhile p 0 < 30 + p :=
  ⟨rolloutsWhileAux_ge p 30 0 (by omega),
   rolloutsWhileAux_dvd p 30 0 (dvd_zero p),
   rolloutsWhileAux_lt p 30 0 (by omega)⟩

/-- C2: with `num_rollouts` configured `0` and at least one worker process,
the effective `num_rollouts` after startup normalization is the smallest
positive multiple of `num_processes` that is at least 30. -/
theorem effNumRollouts_of_zero_is_least_multiple (a : Args)
    (h0 : a.num_rollouts = 0) (hp : 1 ≤ a.num_processes) :
    0 < effNumRollouts a ∧
    (a.num_processes : Int) ∣ effNumRollouts a ∧
    30 ≤ effNumRollouts a ∧
    ∀ m : Int, 0 < m → (a.num_processes : Int) ∣ m → 30 ≤ m →
      effNumRollouts a ≤ m := by
  obtain ⟨hge, hdvd, hlt⟩ := rolloutsWhile_spec a.num_processes hp
  have heff : effNumRollouts a = (rolloutsWhile a.num_processes 0 : Int) := by
    simp [effNumRollouts, h0]
  refine ⟨by rw [heff]; exact_mod_cast Nat.lt_of_lt_of_le (by omega) hge,
          by rw [heff]; exact_mod_cast hdvd,
          by rw [heff]; exact_mod_cast hge, ?_⟩
  intro m hm hmdvd hm30
  rw [heff]
  by_contra hcon
  push_neg at hcon
  have hsub : (a.num_processes : Int) ∣ ((rolloutsWhile a.num_processes 0 : Int) - m) :=
    dvd_sub (by exact_mod_cast hdvd) hmdvd
  have hle : (a.num_processes : Int) ≤ (rolloutsWhile a.num_processes 0 : Int) - m :=
    Int.le_of_dvd (by omega) hsub
  have : (rolloutsWhile a.num_processes 0 : Int) < 30 + (a.num_processes : Int) := by
    exact_mod_cast hlt
  omega

/-- C2 witness: with `num_rollouts = 0` and 4 processes the effective
value is a positive multiple of 4 lying in `[30, 32]`, forced to 32. -/
theorem effNumRollouts_of_zero_witness :
    cfgZeroRollouts.num_rollouts = 0 ∧ 1 ≤ cfgZeroRollouts.num_processes ∧
    0 < effNumRollouts cfgZeroRollouts ∧
    (cfgZeroRollouts.num_processes : Int) ∣ effNumRollouts cfgZeroRollouts ∧
    30 ≤ effNumRollouts cfgZeroRollouts ∧
    effNumRollouts cfgZeroRollouts ≤ 32 :=
  ⟨rfl, by decide,
   (effNumRollouts_of_zero_is_least_multiple cfgZeroRollouts rfl (by decide)).1,
   (effNumRollouts_of_zero_is_least_multiple cfgZeroRollouts rfl (by decide)).2.1,
   (effNumRollouts_of_zero_is_least_multiple cfgZeroRollouts rfl (by decide)).2.2.1,
   (effNumRollouts_of_zero_is_least_multiple cfgZeroRollouts rfl (by decide)).2.2.2
     32 (by decide) (by decide) (by decide)⟩

/-! ## Startup validation (C3) -/

/-- Any configured `num_rollouts` other than `0` is left untouched by the
normalization. -/
lemma effNumRollouts_of_ne (a : Args) (h : a.num_rollouts ≠ 0) :
    effNumRollouts a = a.num_rollouts := by
  rw [effNumRollouts, if_neg h]

/-- When the configured `num_rollouts` is `0`, the normalized value always
passes the divisibility assertion. -/
lemma divisibilityOk_of_zero (a : Args) (h0 : a.num_rollouts = 0)
    (hp : 1 ≤ a.num_processes) : divisibilityOk a = true := by
  obtain ⟨-, hdvd, -⟩ := rolloutsWhile_spec a.num_processes hp
  have heff : effNumRollouts a = (rolloutsWhile a.num_processes 0 : Int) := by
    rw [effNumRollouts, if_pos h0]
  have hz : effNumRollouts a % (a.num_processes : Int) = 0 := by
    rw [heff]
    exact Int.emod_eq_zero_of_dvd (Int.natCast_dvd_natCast.mpr hdvd)
  simp [divisibilityOk, hz]

set_option maxHeartbeats 1000000 in
/-- C3: with at least one worker process, the module-level startup
assertions fail exactly when the configured `num_rollouts` is positive and
not divisible by `num_processes`, or the algorithm name is unknown, or a
recurrent policy is requested for an algorithm other than a2c/ppo. -/
theorem startup_validation_iff (a : Args) (hp : 1 ≤ a.num_processes) :
    startupOk a = false ↔
      (0 < a.num_rollouts ∧ ¬ ((a.num_processes : Int) ∣ a.num_rollouts)) ∨
      (a.algo ≠ "a2c" ∧ a.algo ≠ "ppo" ∧ a.algo ≠ "acktr") ∨
      (a.recurrent_policy = true ∧ a.algo ≠ "a2c" ∧ a.algo ≠ "ppo") := by
  have hdiv : divisibilityOk a = false ↔
      (0 < a.num_rollouts ∧ ¬ ((a.num_processes : Int) ∣ a.num_rollouts)) := by
    rcases lt_trichotomy a.num_rollouts 0 with hneg | hzero | hpos
    · have heff := effNumRollouts_of_ne a (by omega)
      have hd : divisibilityOk a = true := by
        have hdec : decide (0 < effNumRollouts a) = false := by
          rw [heff]
          simpa using (by omega : ¬ (0 : Int) < a.num_rollouts)
        simp [divisibilityOk, hdec]
      rw [hd]
      simp only [show (true = false) ↔ False by simp, false_iff]
      rintro ⟨h, -⟩
      omega
    · rw [divisibilityOk_of_zero a hzero hp]
      simp only [show (true = false) ↔ False by simp, false_iff]
      rintro ⟨h, -⟩
      omega
    · have heff := effNumRollouts_of_ne a (by omega)
      have hdec : decide (0 < effNumRollouts a) = true := by
        rw [heff]
        simpa using hpos
      simp only [divisibilityOk, hdec, Bool.not_true, Bool.false_or]
      rw [heff, beq_eq_false_iff_ne, Int.dvd_iff_emod_eq_zero]
      simp [hpos]
  have halgo : algoOk a = false ↔
      (a.algo ≠ "a2c" ∧ a.algo ≠ "ppo" ∧ a.algo ≠ "acktr") := by
    simp only [algoOk, Bool.or_eq_false_iff, beq_eq_false_iff_ne, and_assoc]
  have hrec : recurrentOk a = false ↔
      (a.recurrent_policy = true ∧ a.algo ≠ "a2c" ∧ a.algo ≠ "ppo") := by
    simp only [recurrentOk, Bool.or_eq_false_iff, beq_eq_false_iff_ne,
      Bool.not_eq_false']
  simp only [startupOk, Bool.and_eq_false_iff, hdiv, halgo, hrec]
  tauto

/-- C3 witness: the baseline configuration (ppo, 90 rollouts over 30
processes) passes validation, and likewise the iff instantiates. -/
theorem startup_validation_witness :
    1 ≤ baseArgs.num_processes ∧
    (startupOk baseArgs = false ↔
      (0 < baseArgs.num_rollouts ∧
        ¬ ((baseArgs.num_processes : Int) ∣ baseArgs.num_rollouts)) ∨
      (baseArgs.algo ≠ "a2c" ∧ baseArgs.algo ≠ "ppo" ∧ baseArgs.algo ≠ "acktr") ∨
      (baseArgs.recurrent_policy = true ∧ baseArgs.algo ≠ "a2c" ∧
        baseArgs.algo ≠ "ppo")) :=
  ⟨by decide, startup_validation_iff baseArgs (by decide)⟩

/-! ## Update count (C4) -/

/-- C4: `num_updates` as computed by the chained floor divisions equals
`floor(total_env_steps / (T * num_processes))`, and the main loop trace has
exactly `num_updates` entries. -/
theorem numUpdates_formula (a : Args) (nl : Nat → Nat)
    (_h1 : 0 < a.num_env_steps) (_h2 : 0 < a.num_steps)
    (_h3 : 0 < a.num_processes) :
    numUpdates a = a.num_env_steps / (a.num_steps * a.num_processes) ∧
    (mainTrace a nl).length = numUpdates a := by
  refine ⟨Nat.div_div_eq_div_mul _ _ _, ?_⟩
  simp [mainTrace]

/-- C4 witness: for 1200 env steps, horizon 8 and 30 processes the loop
runs `1200 / 240 = 5` times. -/
theorem numUpdates_formula_witness :
    0 < baseArgs.num_env_steps ∧ 0 < baseArgs.num_steps ∧
    0 < baseArgs.num_processes ∧
    (numUpdates baseArgs =
      baseArgs.num_env_steps / (baseArgs.num_steps * baseArgs.num_processes) ∧
     (mainTrace baseArgs (fun _ => 0)).length = numUpdates baseArgs) :=
  ⟨by decide, by decide, by decide,
   numUpdates_formula baseArgs (fun _ => 0) (by decide) (by decide) (by decide)⟩

/-! ## Episode-return log capacity (C5) -/

/-- C5 counterexample: with `num_rollouts` configured `0` and 4 processes,
the deque capacity is the normalized effective value 32, not
`max(num_processes, 10) = 10` — the normalization has already replaced the
configured `0` by the time line 121 runs. -/
theorem dequeLen_cex :
    cfgZeroRollouts.num_rollouts = 0 ∧
    dequeLen cfgZeroRollouts ≠ max (cfgZeroRollouts.num_processes : Int) 10 := by
  constructor
  · rfl
  · decide

/-- C5 (amended): the rolling-log capacity is the configured `num_rollouts`
when that is positive, and the *normalized effective* `num_rollouts`
(which is ≥ 30) when the configured value is `0`; the
`max(num_processes, 10)` fallback of line 121 is unreachable in that case. -/
theorem dequeLen_amended (a : Args) (hp : 1 ≤ a.num_processes) :
    (0 < a.num_rollouts → dequeLen a = a.num_rollouts) ∧
    (a.num_rollouts = 0 →
      dequeLen a = effNumRollouts a ∧ 30 ≤ effNumRollouts a) := by
  constructor
  · intro hpos
    have heff := effNumRollouts_of_ne a (by omega)
    rw [dequeLen, heff, if_pos hpos]
  · intro h0
    obtain ⟨hge, -, -⟩ := rolloutsWhile_spec a.num_processes hp
    have heff : effNumRollouts a = (rolloutsWhile a.num_processes 0 : Int) := by
      rw [effNumRollouts, if_pos h0]
    have h30 : (30 : Int) ≤ effNumRollouts a := by
      rw [heff]; exact_mod_cast hge
    refine ⟨?_, h30⟩
    rw [dequeLen, if_pos (by omega)]

/-- C5 (amended) witness: at the counterexample configuration the capacity
equals the effective `num_rollouts`, which is at least 30. -/
theorem dequeLen_amended_witness :
    1 ≤ cfgZeroRollouts.num_processes ∧
    dequeLen cfgZeroRollouts = effNumRollouts cfgZeroRollouts ∧
    30 ≤ effNumRollouts cfgZeroRollouts :=
  ⟨by decide, (dequeLen_amended cfgZeroRollouts (by decide)).2 rfl⟩

/-! ## The rollout-batching scheduler gate (C1) -/

/-- The `updated` event is the negation of the line-160 gate. -/
lemma runCycle_updated (a : Args) (j nl : Nat) :
    (runCycle a j nl).updated = !gateSkips a j := by
  cases hg : gateSkips a j <;> simp [runCycle, hg]

/-- The `skipped` event is exactly the line-160 gate. -/
lemma runCycle_skipped (a : Args) (j nl : Nat) :
    (runCycle a j nl).skipped = gateSkips a j := by
  cases hg : gateSkips a j <;> simp [runCycle, hg]

/-- The decayed learning rate is installed before the gate is consulted. -/
lemma runCycle_lrSet (a : Args) (j nl : Nat) :
    (runCycle a j nl).lrSet = cycleLR a j := by
  cases hg : gateSkips a j <;> simp [runCycle, hg]

/-- The decayed clip parameter is installed before the gate is consulted. -/
lemma runCycle_clipSet (a : Args) (j nl : Nat) :
    (runCycle a j nl).clipSet = cycleClip a j := by
  cases hg : gateSkips a j <;> simp [runCycle, hg]

/-- C1 counterexample: with `num_rollouts = 90`, `num_processes = 30`
(sub-window count 3), the update fires on cycle `j = 0`, yet the sub-window
index does not wrap to 0 on the next cycle (`(0+1) mod 3 = 1`): the code
updates when `k = j mod 3` *is* 0, not when it is about to wrap. -/
theorem scheduler_gate_cex :
    0 < effNumRollouts baseArgs ∧
    cycleLen baseArgs = 3 ∧
    (runCycle baseArgs 0 0).updated = true ∧
    (0 + 1) % cycleLen baseArgs ≠ 0 := by decide

/-- C1 (amended): when the effective `num_rollouts` is positive, the
learning update fires on cycle `j` exactly when
`k = j mod (num_rollouts / num_processes)` equals 0 — i.e. once every
`num_rollouts / num_processes` cycles, with period `cycleLen` — and every
other cycle is skip-continued collection-only. -/
theorem scheduler_gate_amended (a : Args) (j nl : Nat)
    (hnr : 0 < effNumRollouts a) :
    ((runCycle a j nl).updated = true ↔ j % cycleLen a = 0) ∧
    (runCycle a j nl).skipped = !(runCycle a j nl).updated ∧
    (runCycle a (j + cycleLen a) nl).updated = (runCycle a j nl).updated := by
  refine ⟨?_, ?_, ?_⟩
  · simp [runCycle_updated, gateSkips, hnr]
  · simp [runCycle_updated, runCycle_skipped]
  · simp [runCycle_updated, gateSkips, hnr, Nat.add_mod_right]

/-- C1 (amended) witness: instantiated at the spec's worked example
(`90` rollouts over `30` processes) on cycle 3. -/
theorem scheduler_gate_amended_witness :
    0 < effNumRollouts baseArgs ∧
    (((runCycle baseArgs 3 0).updated = true ↔ 3 % cycleLen baseArgs = 0) ∧
     (runCycle baseArgs 3 0).skipped = !(runCycle baseArgs 3 0).updated ∧
     (runCycle baseArgs (3 + cycleLen baseArgs) 0).updated =
       (runCycle baseArgs 3 0).updated) :=
  ⟨by decide, scheduler_gate_amended baseArgs 3 0 (by decide)⟩

/-! ## Checkpoint schedule (C6) -/

/-- C6 counterexample: with `num_updates = 5`, sub-window count 3 and
`save_interval = 100`, the last cycle `j = 4` is skip-continued, so the
final fired update (`j = 3`) is the run's last update and it writes no
checkpoint even though `save_dir` is non-empty — "the final update always
checkpoints" fails. -/
theorem checkpoint_cex :
    baseArgs.save_dir ≠ "" ∧
    numUpdates baseArgs = 5 ∧
    (runCycle baseArgs 3 0).updated = true ∧
    (runCycle baseArgs 3 0).saved = false ∧
    (runCycle baseArgs 4 0).updated = false := by decide

/-- C6 (amended): a checkpoint is persisted on cycle `j` exactly when the
update fires on that cycle, `save_dir` is non-empty, and `j` is a multiple
of `save_interval` or `j = num_updates - 1`; the final *cycle* checkpoints
when it is update-eligible, but a run whose last cycle is skip-continued
may end with an update that does not checkpoint. -/
theorem checkpoint_schedule_amended (a : Args) (j nl : Nat) :
    (runCycle a j nl).saved = true ↔
      ((runCycle a j nl).updated = true ∧ a.save_dir ≠ "" ∧
       (j % a.save_interval = 0 ∨ j = numUpdates a - 1)) := by
  cases hg : gateSkips a j <;> (simp [runCycle, hg]; try tauto)

/-! ## Decay progress on skipped cycles (C8) -/

/-- C8: the linear decay of the learning rate (and, for PPO, of the clip
parameter) is computed from the cycle index `j` at the top of every cycle,
before the scheduler gate; its value on cycle `j` is
`initial_lr * (1 - j / num_updates)` whether or not the update fires
(`lrSet`/`clipSet` always equal the pre-gate `cycleLR`/`cycleClip`). -/
theorem decay_pre_gate (a : Args) (j nl : Nat) :
    (a.use_linear_lr_decay = true →
      (runCycle a j nl).lrSet =
        some (initialLR a * (1 - (j : ℚ) / (numUpdates a : ℚ)))) ∧
    (a.algo = "ppo" → a.use_linear_clip_decay = true →
      (runCycle a j nl).clipSet =
        some (a.clip_param * (1 - (j : ℚ) / (numUpdates a : ℚ)))) ∧
    (runCycle a j nl).lrSet = cycleLR a j ∧
    (runCycle a j nl).clipSet = cycleClip a j := by
  refine ⟨?_, ?_, runCycle_lrSet a j nl, runCycle_clipSet a j nl⟩
  · intro h
    rw [runCycle_lrSet, cycleLR, if_pos h, update_linear_schedule]
  · intro halgo h
    rw [runCycle_clipSet, cycleClip, if_pos (by simp [halgo, h])]

/-- A configuration with both linear decays enabled. -/
def cfgDecay : Args :=
  { baseArgs with use_linear_lr_decay := true, use_linear_clip_decay := true }

/-- C8 witness: on cycle `j = 1` — a skip-continued, collection-only cycle
(`1 mod 3 ≠ 0`) — the decayed learning rate and clip parameter are still
installed from index 1. -/
theorem decay_pre_gate_witness :
    (runCycle cfgDecay 1 0).skipped = true ∧
    (runCycle cfgDecay 1 0).lrSet =
      some (initialLR cfgDecay * (1 - (1 : ℚ) / (numUpdates cfgDecay : ℚ))) ∧
    (runCycle cfgDecay 1 0).clipSet =
      some (cfgDecay.clip_param * (1 - (1 : ℚ) / (numUpdates cfgDecay : ℚ))) :=
  ⟨by decide, (decay_pre_gate cfgDecay 1 0).1 rfl,
   (decay_pre_gate cfgDecay 1 0).2.1 rfl rfl⟩

/-! ## Evaluation loop (C7, C9) -/

lemma streamAccum_zero (c : Nat → List ℚ) : streamAccum c 0 = [] := rfl

lemma streamAccum_succ (c : Nat → List ℚ) (n : Nat) :
    streamAccum c (n + 1) = c 0 ++ streamAccum (fun t => c (t + 1)) n := by
  rw [streamAccum, streamAccum, List.range_succ_eq_map, List.flatMap_cons,
    List.flatMap_map]

lemma evalIter_rewards (a : Args) (c : List ℚ) (s : EvalState) :
    (evalIter a c s).rewards = s.rewards ++ c := by
  simp [evalIter]

lemma evalIter_robot1 (a : Args) (c : List ℚ) (s : EvalState) :
    (evalIter a c s).robot1 = s.robot1 := by
  simp [evalIter]

lemma evalIter_robot2 (a : Args) (c : List ℚ) (s : EvalState) :
    (evalIter a c s).robot2 = s.robot2 := by
  simp [evalIter]

/-- The evaluation collection loop runs until the first step index at which
at least 10 episode returns have accumulated, and returns exactly the
returns gathered up to that index. -/
lemma evalLoop_stop (a : Args) :
    ∀ (fuel : Nat) (c : Nat → List ℚ) (s : EvalState),
      (∃ n, n ≤ fuel ∧ 10 ≤ (s.rewards ++ streamAccum c n).length) →
      ∃ n₀, (∀ m, m < n₀ → (s.rewards ++ streamAccum c m).length < 10) ∧
            10 ≤ (s.rewards ++ streamAccum c n₀).length ∧
            (evalLoop a fuel c s).rewards = s.rewards ++ streamAccum c n₀ := by
  intro fuel
  induction fuel with
  | zero =>
    intro c s h
    obtain ⟨n, hn, h10⟩ := h
    have hn0 : n = 0 := Nat.le_zero.mp hn
    subst hn0
    exact ⟨0, fun m hm => absurd hm (Nat.not_lt_zero m), h10,
      by rw [streamAccum_zero, List.append_nil]; rfl⟩
  | succ f ih =>
    intro c s h
    by_cases hlen : s.rewards.length < 10
    · have hstep : evalLoop a (f + 1) c s
          = evalLoop a f (fun t => c (t + 1)) (evalIter a (c 0) s) := by
        rw [evalLoop, if_pos hlen]
      obtain ⟨n, hn, h10⟩ := h
      have hnpos : n ≠ 0 := by
        intro h0
        subst h0
        rw [streamAccum_zero, List.append_nil] at h10
        omega
      obtain ⟨n', rfl⟩ : ∃ n', n = n' + 1 := ⟨n - 1, by omega⟩
      have hex' : ∃ m, m ≤ f ∧
          10 ≤ ((evalIter a (c 0) s).rewards ++
                streamAccum (fun t => c (t + 1)) m).length := by
        refine ⟨n', by omega, ?_⟩
        rw [evalIter_rewards, List.append_assoc, ← streamAccum_succ]
        exact h10
      obtain ⟨n₀, hmin, h10', heq⟩ := ih _ _ hex'
      refine ⟨n₀ + 1, ?_, ?_, ?_⟩
      · intro m hm
        cases m with
        | zero =>
          rw [streamAccum_zero, List.append_nil]
          exact hlen
        | succ m' =>
          have hlt := hmin m' (by omega)
          rw [evalIter_rewards, List.append_assoc, ← streamAccum_succ] at hlt
          exact hlt
      · rw [streamAccum_succ, ← List.append_assoc, ← evalIter_rewards a (c 0) s]
        exact h10'
      · rw [hstep, heq, evalIter_rewards, List.append_assoc, ← streamAccum_succ]
    · push_neg at hlen
      have hstep : evalLoop a (f + 1) c s = s := by
        rw [evalLoop, if_neg (by omega)]
      refine ⟨0, fun m hm => absurd hm (Nat.not_lt_zero m), ?_, ?_⟩
      · rw [streamAccum_zero, List.append_nil]
        exact hlen
      · rw [hstep, streamAccum_zero, List.append_nil]

/-- C7: an evaluation phase on cycle `j` requires a configured
`eval_interval` dividing `j` and at least 2 logged episode returns; the
evaluation environments are seeded `seed + num_processes`; actions are
taken deterministically; and the collection loop stops at the first step
where at least 10 completed-episode returns have been gathered. -/
theorem eval_gating_and_stopping (a : Args) (j nl : Nat) :
    ((runCycle a j nl).evaled = true →
      (∃ ei, a.eval_interval = some ei ∧ j % ei = 0) ∧ 1 < nl) ∧
    evalSeed a = a.seed + (a.num_processes : Int) ∧
    evalActDeterministic = true ∧
    ∀ (c : Nat → List ℚ) (fuel : Nat),
      (∃ n, n ≤ fuel ∧ 10 ≤ (streamAccum c n).length) →
      ∃ n₀, (∀ m, m < n₀ → (streamAccum c m).length < 10) ∧
            10 ≤ (streamAccum c n₀).length ∧
            (evalLoop a fuel c (evalInit a)).rewards = streamAccum c n₀ := by
  refine ⟨?_, rfl, rfl, ?_⟩
  · intro hev
    by_cases hg : gateSkips a j = true
    · rw [runCycle] at hev
      rw [if_pos hg] at hev
      simp at hev
    · rw [runCycle] at hev
      rw [if_neg hg] at hev
      cases hei : a.eval_interval with
      | none =>
        rw [hei] at hev
        simp at hev
      | some ei =>
        rw [hei] at hev
        simp only [decide_eq_true_eq] at hev
        exact ⟨⟨ei, rfl, hev.2⟩, hev.1⟩
  · intro c fuel hex
    have hres := evalLoop_stop a fuel c (evalInit a) (by
      obtain ⟨n, hn, h10⟩ := hex
      exact ⟨n, hn, by simpa [evalInit] using h10⟩)
    obtain ⟨n₀, hmin, h10, heq⟩ := hres
    refine ⟨n₀, ?_, by simpa [evalInit] using h10, by simpa [evalInit] using heq⟩
    intro m hm
    have := hmin m hm
    simpa [evalInit] using this

/-- A configuration with `eval_interval = 1`. -/
def cfgEval : Args := { baseArgs with eval_interval := some 1 }

/-- A step stream whose every step completes five episodes. -/
def evalStream : Nat → List ℚ := fun _ => [1, 2, 3, 4, 5]

/-- C7 witness: on cycle 0 with 2 logged episodes the evaluation runs, and
with five completions per step the collection loop stops after exactly two
steps with 10 returns. -/
theorem eval_gating_and_stopping_witness :
    ((∃ ei, cfgEval.eval_interval = some ei ∧ 0 % ei = 0) ∧ 1 < 2) ∧
    (∃ n₀, (∀ m, m < n₀ → (streamAccum evalStream m).length < 10) ∧
           10 ≤ (streamAccum evalStream n₀).length ∧
           (evalLoop cfgEval 3 evalStream (evalInit cfgEval)).rewards =
             streamAccum evalStream n₀) :=
  ⟨(eval_gating_and_stopping cfgEval 0 2).1 (by decide),
   (eval_gating_and_stopping cfgEval 0 2).2.2.2 evalStream 3
     ⟨2, by decide, by decide⟩⟩

/-- C9: `reset_rewards` is assigned `False` on every evaluation iteration
and never set otherwise, so the branch clearing `eval_reward_list_robot1`
and `eval_reward_list_robot2` is unreachable: the robot reward lists of the
evaluation state are invariant across any single iteration and across the
whole collection loop. -/
theorem reset_rewards_dead (a : Args) (c : List ℚ) (s : EvalState) :
    ((evalIter a c s).robot1 = s.robot1 ∧ (evalIter a c s).robot2 = s.robot2) ∧
    ∀ (fuel : Nat) (cs : Nat → List ℚ) (t : EvalState),
      (evalLoop a fuel cs t).robot1 = t.robot1 ∧
      (evalLoop a fuel cs t).robot2 = t.robot2 := by
  refine ⟨⟨evalIter_robot1 a c s, evalIter_robot2 a c s⟩, ?_⟩
  intro fuel
  induction fuel with
  | zero => intro cs t; exact ⟨rfl, rfl⟩
  | succ f ih =>
    intro cs t
    rw [evalLoop]
    split
    · refine ⟨?_, ?_⟩
      · rw [(ih (fun u => cs (u + 1)) (evalIter a (cs 0) t)).1, evalIter_robot1]
      · rw [(ih (fun u => cs (u + 1)) (evalIter a (cs 0) t)).2, evalIter_robot2]
    · exact ⟨rfl, rfl⟩

/-! ## Fixed sub-window collection and initial tiling (C10) -/

/-- C10: on every collection step the driver feeds `actor_critic.act` the
first `num_processes` columns of the storage, independently of the cycle
index (and hence of the sub-window index `k`); and with `num_rollouts > 0`
satisfying the divisibility invariant, the initial observation row is the
reset batch tiled `num_rollouts / num_processes` times, the trailing modulo
slice being empty. -/
theorem fixed_subwindow_and_tiling (a : Args) (row obs : List ℚ) (j j' : Nat)
    (hlen : obs.length = a.num_processes)
    (_hnr : 0 < effNumRollouts a)
    (hdvd : a.num_processes ∣ (effNumRollouts a).toNat) :
    collectionReadSlice a row j = row.take a.num_processes ∧
    collectionReadSlice a row j = collectionReadSlice a row j' ∧
    obs.take ((effNumRollouts a).toNat % a.num_processes) = [] ∧
    initObsRow obs (effNumRollouts a).toNat a.num_processes =
      (List.replicate ((effNumRollouts a).toNat / a.num_processes) obs).flatten ∧
    (initObsRow obs (effNumRollouts a).toNat a.num_processes).length =
      (effNumRollouts a).toNat := by
  have hmod : (effNumRollouts a).toNat % a.num_processes = 0 :=
    Nat.mod_eq_zero_of_dvd hdvd
  have htake : obs.take ((effNumRollouts a).toNat % a.num_processes) = [] := by
    rw [hmod, List.take_zero]
  have htile : initObsRow obs (effNumRollouts a).toNat a.num_processes =
      (List.replicate ((effNumRollouts a).toNat / a.num_processes) obs).flatten := by
    rw [initObsRow, htake, List.append_nil]
  refine ⟨rfl, rfl, htake, htile, ?_⟩
  rw [htile, List.length_flatten, List.map_replicate, hlen, List.sum_replicate,
    smul_eq_mul, Nat.div_mul_cancel hdvd]

/-- A small configuration for the C10 witness: 4 rollouts on 2 processes. -/
def cfgSmall : Args := { baseArgs with num_rollouts := 4, num_processes := 2 }

/-- C10 witness: with 4 rollouts over 2 processes and the 2-wide reset
batch `[1, 2]`, the slice read for `act` is the first two columns on every
cycle, and slot 0 is the batch tiled twice. -/
theorem fixed_subwindow_and_tiling_witness :
    ([(1 : ℚ), 2].length = cfgSmall.num_processes ∧
     0 < effNumRollouts cfgSmall ∧
     cfgSmall.num_processes ∣ (effNumRollouts cfgSmall).toNat) ∧
    (collectionReadSlice cfgSmall [(5 : ℚ), 6, 7] 0 =
       [(5 : ℚ), 6, 7].take cfgSmall.num_processes ∧
     collectionReadSlice cfgSmall [(5 : ℚ), 6, 7] 0 =
       collectionReadSlice cfgSmall [(5 : ℚ), 6, 7] 7 ∧
     [(1 : ℚ), 2].take ((effNumRollouts cfgSmall).toNat % cfgSmall.num_processes)
       = [] ∧
     initObsRow [(1 : ℚ), 2] (effNumRollouts cfgSmall).toNat
       cfgSmall.num_processes =
       (List.replicate ((effNumRollouts cfgSmall).toNat / cfgSmall.num_processes)
         [(1 : ℚ), 2]).flatten ∧
     (initObsRow [(1 : ℚ), 2] (effNumRollouts cfgSmall).toNat
       cfgSmall.num_processes).length = (effNumRollouts cfgSmall).toNat) :=
  ⟨⟨by decide, by decide, by decide⟩,
   fixed_subwindow_and_tiling cfgSmall [(5 : ℚ), 6, 7] [(1 : ℚ), 2] 0 7
     (by decide) (by decide) (by decide)⟩

end TrainSingle
